import Mathlib

/-!
Shallow embedding of the Curiosity Minecraft client core
(src/curiosity/minecraft/protocol.py and src/curiosity/minecraft/bot.py).

Conventions of the embedding:
* Python `bytes` values are `List Nat`, each element below 256.
* Python `int` is `Int`; Python floor division `//` and `>>`/`%` on
  signed integers coincide with Lean `Int` division and `%` (both are
  floor-style for positive divisors).
* Python `float`/doubles are modelled as `ℚ`: the handlers under
  verification only copy, add and compare these fields, so the claims
  are about field-selection logic, not floating-point rounding.
* Exceptions become `Except`/`Option` results.
-/

namespace Curiosity

/-- Errors raised by `VarInt.read`: `ValueError("VarInt is too short")`
and `ValueError("VarInt is too big")` in the source. -/
inductive VarIntErr
  | tooShort
  | tooBig
  deriving DecidableEq

namespace VarInt

/-- The loop body of `VarInt.write` (protocol.py lines 54-63), after the
negative value has been shifted into `[0, 2^32)`.  The Python loop
terminates because `value >>= 7` strictly decreases a positive value, so
running it with `value` itself as fuel is exact for `v ≤ fuel`. -/
def writeNatAux : Nat → Nat → List Nat
  | 0, v => [v &&& 0x7F]
  | fuel + 1, v =>
    if v >>> 7 = 0 then [v &&& 0x7F]
    else ((v &&& 0x7F) ||| 0x80) :: writeNatAux fuel (v >>> 7)

/-- `VarInt.write` loop on a value already reduced to `[0, 2^32)`. -/
def writeNat (v : Nat) : List Nat := writeNatAux v v

/-- `VarInt.write` (protocol.py lines 50-63): negative values are first
mapped to `value + 2^32`. -/
def write (value : Int) : List Nat :=
  writeNat (if value < 0 then value + 2 ^ 32 else value).toNat

/-- The loop of `VarInt.read` (protocol.py lines 32-48).  The Python code
walks `data` by incrementing `offset`; the embedding consumes the list
head by head and reports how many bytes were consumed. -/
def readAux : List Nat → Nat → Nat → Nat → Except VarIntErr (Nat × Nat)
  | [], _, _, _ => .error .tooShort
  | b :: rest, acc, shift, consumed =>
    if b &&& 0x80 = 0 then .ok (acc ||| (b &&& 0x7F) <<< shift, consumed + 1)
    else if 32 ≤ shift + 7 then .error .tooBig
    else readAux rest (acc ||| (b &&& 0x7F) <<< shift) (shift + 7) (consumed + 1)

/-- `VarInt.read` at offset 0: returns the signed value and the number of
bytes consumed (the new offset). -/
def read (data : List Nat) : Except VarIntErr (Int × Nat) :=
  match readAux data 0 0 0 with
  | .error e => .error e
  | .ok (r, c) => .ok (if 2 ^ 31 ≤ r then (r : Int) - 2 ^ 32 else (r : Int), c)

/-- `VarInt.read(data, offset)`: reading at an offset is reading the
remaining bytes; the returned offset is absolute, as in the source. -/
def readAt (data : List Nat) (offset : Nat) : Except VarIntErr (Int × Nat) :=
  match read (data.drop offset) with
  | .error e => .error e
  | .ok (v, c) => .ok (v, offset + c)

end VarInt

namespace PacketBuffer

/-- `PacketBuffer.read_string` (protocol.py lines 75-79): reads a VarInt
byte length, then slices `data[offset : offset + length]` and advances
the offset by the declared length.  Python slicing silently truncates
when the buffer is short, and the offset may move past the end; the
returned bytes are kept un-decoded (UTF-8 decoding is orthogonal to the
claims).  The returned offset is an `Int` because the declared length is
a signed VarInt. -/
def read_string (data : List Nat) (offset : Nat) : Except VarIntErr (List Nat × Int) :=
  match VarInt.readAt data offset with
  | .error e => .error e
  | .ok (length, off2) => .ok ((data.drop off2).take length.toNat, (off2 : Int) + length)

/-- `PacketBuffer.read_long` on the first 8 bytes of the buffer
(protocol.py lines 112-115, `struct.unpack(">q", ...)`): big-endian,
signed 64-bit. -/
def read_long (data : List Nat) : Option Int :=
  match data with
  | b0 :: b1 :: b2 :: b3 :: b4 :: b5 :: b6 :: b7 :: _ =>
    some (signed64 (((((((b0 * 256 + b1) * 256 + b2) * 256 + b3) * 256 + b4) * 256 + b5)
      * 256 + b6) * 256 + b7))
  | _ => none
where
  /-- two's-complement reading of an unsigned 64-bit value -/
  signed64 (v : Nat) : Int := if 2 ^ 63 ≤ v then (v : Int) - 2 ^ 64 else (v : Int)

/-- `PacketBuffer.read_position` (protocol.py lines 132-143).  Python's
`>>` on a signed int is floor division by a power of two and `& mask`
with a positive mask is `% (mask+1)`; Lean `Int` division and `%` have
exactly those semantics. -/
def read_position (data : List Nat) : Option (Int × Int × Int) :=
  match read_long data with
  | none => none
  | some val =>
    let x := val / 2 ^ 38
    let y := val % 2 ^ 12
    let z := (val / 2 ^ 12) % 2 ^ 26
    some (if 2 ^ 25 ≤ x then x - 2 ^ 26 else x,
          if 2 ^ 11 ≤ y then y - 2 ^ 12 else y,
          if 2 ^ 25 ≤ z then z - 2 ^ 26 else z)

end PacketBuffer

/-- The packed-position encoding named by the spec:
`((x & 0x3FFFFFF) << 38) | ((z & 0x3FFFFFF) << 12) | (y & 0xFFF)`.
On a two's-complement integer `x & 0x3FFFFFF` is the non-negative
`x % 2^26` (and `y & 0xFFF` is `y % 2^12`), so the three fields are
the natural numbers combined below. -/
def packPosition (x y z : Int) : Nat :=
  ((x % 2 ^ 26).toNat <<< 38 ||| (z % 2 ^ 26).toNat <<< 12) ||| (y % 2 ^ 12).toNat

/-- Big-endian 8-byte encoding of an unsigned 64-bit value, as
`struct.pack(">q")` produces for a non-negative value. -/
def beLongBytes (n : Nat) : List Nat :=
  [n / 2 ^ 56 % 256, n / 2 ^ 48 % 256, n / 2 ^ 40 % 256, n / 2 ^ 32 % 256,
   n / 2 ^ 24 % 256, n / 2 ^ 16 % 256, n / 2 ^ 8 % 256, n % 256]

/-- `packet_data` of `send_packet` (protocol.py line 335):
VarInt-encoded packet id followed by the body. -/
def packet_data (packet_id : Int) (data : List Nat) : List Nat :=
  VarInt.write packet_id ++ data

/-- `packet_with_length` of `send_packet` (protocol.py lines 337-342),
the frame payload used when a compression threshold is set.  `zlib`
is external; the compression function is a parameter. -/
def packet_with_length (compress : List Nat → List Nat) (threshold : Int)
    (packet_id : Int) (data : List Nat) : List Nat :=
  if threshold ≤ ((packet_data packet_id data).length : Int) then
    VarInt.write ((packet_data packet_id data).length : Int) ++ compress (packet_data packet_id data)
  else
    VarInt.write 0 ++ packet_data packet_id data

/-- `final_packet` of `send_packet` (protocol.py lines 337-345): the
full frame written to the socket (before encryption). -/
def send_packet (compress : List Nat → List Nat) (threshold : Int)
    (packet_id : Int) (data : List Nat) : List Nat :=
  if 0 ≤ threshold then
    VarInt.write ((packet_with_length compress threshold packet_id data).length : Int)
      ++ packet_with_length compress threshold packet_id data
  else
    VarInt.write ((packet_data packet_id data).length : Int) ++ packet_data packet_id data

/-- Outcome of one iteration of the frame-assembly loop in
`receive_packet` (protocol.py lines 355-368): either a complete frame is
sliced out of the accumulator, or the loop falls through to
`await self._reader.read(4096)` for more socket data.  The
`except ValueError: pass` in the source routes every `VarInt.read`
failure to the second outcome. -/
inductive FrameOutcome
  | frame (packet : List Nat) (rest : List Nat)
  | needMoreData
  deriving DecidableEq

/-- One iteration of the `receive_packet` frame-assembly loop over the
current receive buffer. -/
def receive_frame_step (buf : List Nat) : FrameOutcome :=
  match VarInt.read buf with
  | .ok (length, offset) =>
    if (offset : Int) + length ≤ (buf.length : Int) then
      .frame ((buf.drop offset).take length.toNat) (buf.drop ((offset : Int) + length).toNat)
    else .needMoreData
  | .error _ => .needMoreData

/-! The bot-side game state machine (bot.py). -/

/-- `ConnectionState` (protocol.py lines 16-21). -/
inductive ConnState
  | handshaking
  | status
  | login
  | configuration
  | play
  deriving DecidableEq

/-- `Position` (protocol.py lines 208-215). -/
structure Position where
  x : ℚ := 0
  y : ℚ := 0
  z : ℚ := 0
  yaw : ℚ := 0
  pitch : ℚ := 0
  on_ground : Bool := true
  deriving DecidableEq

/-- `PlayerState` (protocol.py lines 218-229); fields not touched by any
claim's handler (uuid, username, dimension strings) are kept as plain
data. -/
structure PlayerState where
  entity_id : Int := 0
  uuid : String := ""
  username : String := ""
  position : Position := {}
  health : ℚ := 20
  food : Int := 20
  saturation : ℚ := 5
  gamemode : Int := 0
  is_hardcore : Bool := false
  deriving DecidableEq

/-- The dict literal stored by `_handle_spawn_entity` (bot.py lines
507-514): keys entity_id, uuid, type, x, y, z. -/
structure EntityRec where
  entity_id : Int
  uuid : String
  etype : Int
  x : ℚ
  y : ℚ
  z : ℚ
  deriving DecidableEq

/-- The dict appended by `_handle_block_update` (bot.py lines 491-495);
`time.time()` is passed in as part of the packet input. -/
structure BlockChange where
  position : Int × Int × Int
  block_id : Int
  time : ℚ
  deriving DecidableEq

/-- `WorldState` (bot.py lines 31-41).  `entities` is a Python dict
keyed by entity id, embedded as an association list with dict
insert/pop/update semantics; chunk storage is not modelled because no
claim touches it. -/
structure WorldState where
  spawn_position : Int × Int × Int := (0, 64, 0)
  time_of_day : Int := 0
  weather : String := "clear"
  difficulty : Int := 2
  entities : List (Int × EntityRec) := []
  block_changes : List BlockChange := []
  world_height : Int := 384
  min_y : Int := -64
  deriving DecidableEq

/-- `dict[key] = value`: replace in place if the key exists, else append. -/
def dictInsert (m : List (Int × EntityRec)) (k : Int) (v : EntityRec) :
    List (Int × EntityRec) :=
  if m.any (fun pr => pr.1 = k) then m.map (fun pr => if pr.1 = k then (k, v) else pr)
  else m ++ [(k, v)]

/-- `dict.pop(key, None)`: remove the key if present, else no-op. -/
def dictPop (m : List (Int × EntityRec)) (k : Int) : List (Int × EntityRec) :=
  m.filter (fun pr => pr.1 ≠ k)

/-- `key in dict`. -/
def dictMem (m : List (Int × EntityRec)) (k : Int) : Bool :=
  m.any (fun pr => pr.1 = k)

/-- In-place mutation `dict[key]["x"] += dx` style update of one record. -/
def dictUpdate (m : List (Int × EntityRec)) (k : Int) (f : EntityRec → EntityRec) :
    List (Int × EntityRec) :=
  m.map (fun pr => if pr.1 = k then (pr.1, f pr.2) else pr)

/-- The decoded clientbound packets whose handlers the claims exercise.
Payload fields appear in wire order.  `updateEntityPosition` carries the
raw shorts; the handler divides by 4096 as in the source. -/
inductive Packet
  | loginPlay (entity_id : Int) (is_hardcore : Bool)
  | startConfiguration
  | configFinish
  | synchronizePlayerPosition (teleport_id : Int) (x y z vx vy vz yaw pitch : ℚ) (flags : Int)
  | blockUpdate (position : Int × Int × Int) (block_id : Int) (time : ℚ)
  | spawnEntity (entity_id : Int) (uuid : String) (etype : Int) (x y z : ℚ)
  | removeEntities (ids : List Int)
  | updateEntityPosition (entity_id : Int) (dxRaw dyRaw dzRaw : Int)
  | updateEntityPositionAndRotation (entity_id : Int) (dxRaw dyRaw dzRaw : Int)
  | keepAlive (keep_alive_id : Int)
  | setDefaultSpawnPosition (position : Int × Int × Int)
  deriving DecidableEq

/-- Events fanned out by `_emit`. -/
inductive Event
  | join
  | spawn
  | health
  | death
  | disconnect
  deriving DecidableEq

/-- Serverbound packets produced by the modelled handlers.
`teleportConfirm i` is `send_teleport_confirm(i)`: packet id 0x00 with
`VarInt.write i` as body (protocol.py lines 491-493). -/
inductive Sent
  | teleportConfirm (teleport_id : Int)
  | keepAliveReply (keep_alive_id : Int)
  | configurationAck0x0C
  | clientInformation
  | finishConfigurationAck
  deriving DecidableEq

/-- The bot-side mutable state relevant to the claims (`MinecraftBot`
fields, bot.py lines 56-77, plus the protocol state variable). -/
structure BotState where
  connState : ConnState := ConnState.handshaking
  player : PlayerState := {}
  world : WorldState := {}
  joined_game : Bool := false
  spawn_confirmed : Bool := false
  in_configuration : Bool := false
  target_yaw : Option ℚ := none
  target_pitch : Option ℚ := none
  position_task_started : Bool := false
  last_keep_alive : Int := 0
  deriving DecidableEq

/-- `_handle_login_play` (bot.py lines 347-358). -/
def handleLoginPlay (s : BotState) (eid : Int) (hardcore : Bool) :
    BotState × List Sent × List Event :=
  if s.joined_game then (s, [], [])
  else
    ({ s with joined_game := true,
              player := { s.player with entity_id := eid, is_hardcore := hardcore },
              in_configuration := false }, [], [Event.join])

/-- `_handle_start_configuration` (bot.py lines 559-567): sends a packet
with id 0x0C, flips the protocol state back to Configuration, resets the
joined/spawn flags and re-sends client information. -/
def handleStartConfiguration (s : BotState) : BotState × List Sent × List Event :=
  ({ s with connState := ConnState.configuration,
            in_configuration := true,
            joined_game := false,
            spawn_confirmed := false },
   [Sent.configurationAck0x0C, Sent.clientInformation], [])

/-- `_handle_config_finish` (bot.py lines 238-242):
`send_configuration_finish_ack` moves the protocol state to Play. -/
def handleConfigFinish (s : BotState) : BotState × List Sent × List Event :=
  ({ s with connState := ConnState.play, in_configuration := false },
   [Sent.finishConfigurationAck], [])

/-- `_handle_synchronize_player_position` (bot.py lines 288-330).
Python's `if flags & 0x01:` tests that the bitwise AND is non-zero. -/
def handleSynchronizePlayerPosition (s : BotState) (tid : Int)
    (x y z _vx _vy _vz yaw pitch : ℚ) (flags : Int) :
    BotState × List Sent × List Event :=
  let p0 := s.player.position
  let p1 : Position :=
    { p0 with
      x := if Int.land flags 0x01 ≠ 0 then p0.x + x else x,
      y := if Int.land flags 0x02 ≠ 0 then p0.y + y else y,
      z := if Int.land flags 0x04 ≠ 0 then p0.z + z else z,
      yaw := if Int.land flags 0x08 ≠ 0 then p0.yaw + yaw else yaw,
      pitch := if Int.land flags 0x10 ≠ 0 then p0.pitch + pitch else pitch }
  let s1 := { s with player := { s.player with position := p1 } }
  let s2 := if s1.spawn_confirmed then s1 else { s1 with spawn_confirmed := true }
  let s3 := if s2.position_task_started then s2 else { s2 with position_task_started := true }
  (s3, [Sent.teleportConfirm tid], if s1.spawn_confirmed then [] else [Event.spawn])

/-- `_handle_block_update` (bot.py lines 488-497): append one record;
`block_changes[-500:]` keeps the last 500 when the length exceeds 1000. -/
def handleBlockUpdate (s : BotState) (pos : Int × Int × Int) (bid : Int) (t : ℚ) :
    BotState × List Sent × List Event :=
  let bc0 := s.world.block_changes ++ [{ position := pos, block_id := bid, time := t }]
  let bc1 := if 1000 < bc0.length then bc0.drop (bc0.length - 500) else bc0
  ({ s with world := { s.world with block_changes := bc1 } }, [], [])

/-- `_handle_spawn_entity` (bot.py lines 499-514). -/
def handleSpawnEntity (s : BotState) (eid : Int) (uuid : String) (ty : Int)
    (x y z : ℚ) : BotState × List Sent × List Event :=
  ({ s with world := { s.world with
      entities := dictInsert s.world.entities eid
        { entity_id := eid, uuid := uuid, etype := ty, x := x, y := y, z := z } } },
   [], [])

/-- `_handle_remove_entities` (bot.py lines 516-520). -/
def handleRemoveEntities (s : BotState) (ids : List Int) :
    BotState × List Sent × List Event :=
  ({ s with world := { s.world with
      entities := ids.foldl (fun m k => dictPop m k) s.world.entities } },
   [], [])

/-- `_handle_entity_position` and `_handle_entity_position_rotation`
(bot.py lines 522-542, identical bodies): add `short / 4096` to each
coordinate if the entity is known. -/
def handleUpdateEntityPosition (s : BotState) (eid : Int) (dxRaw dyRaw dzRaw : Int) :
    BotState × List Sent × List Event :=
  if dictMem s.world.entities eid then
    ({ s with world := { s.world with
        entities := dictUpdate s.world.entities eid (fun e =>
          { e with x := e.x + (dxRaw : ℚ) / 4096,
                   y := e.y + (dyRaw : ℚ) / 4096,
                   z := e.z + (dzRaw : ℚ) / 4096 }) } },
     [], [])
  else (s, [], [])

/-- `_handle_keep_alive` (bot.py lines 280-286). -/
def handleKeepAlive (s : BotState) (kid : Int) : BotState × List Sent × List Event :=
  ({ s with last_keep_alive := kid }, [Sent.keepAliveReply kid], [])

/-- `_handle_set_default_spawn` (bot.py lines 360-363). -/
def handleSetDefaultSpawn (s : BotState) (pos : Int × Int × Int) :
    BotState × List Sent × List Event :=
  ({ s with world := { s.world with spawn_position := pos } }, [], [])

/-- `_handle_packet` dispatch (bot.py lines 194-201 together with the
handler table of `_setup_packet_handlers`): a handler runs only when
`(state, packet_id)` is registered; every other pair is dropped. -/
def step (s : BotState) (p : Packet) : BotState × List Sent × List Event :=
  match s.connState, p with
  | .play, .loginPlay eid hc => handleLoginPlay s eid hc
  | .play, .startConfiguration => handleStartConfiguration s
  | .configuration, .configFinish => handleConfigFinish s
  | .play, .synchronizePlayerPosition tid x y z vx vy vz yaw pitch flags =>
      handleSynchronizePlayerPosition s tid x y z vx vy vz yaw pitch flags
  | .play, .blockUpdate pos bid t => handleBlockUpdate s pos bid t
  | .play, .spawnEntity eid u ty x y z => handleSpawnEntity s eid u ty x y z
  | .play, .removeEntities ids => handleRemoveEntities s ids
  | .play, .updateEntityPosition eid a b c => handleUpdateEntityPosition s eid a b c
  | .play, .updateEntityPositionAndRotation eid a b c => handleUpdateEntityPosition s eid a b c
  | .play, .keepAlive kid => handleKeepAlive s kid
  | .play, .setDefaultSpawnPosition pos => handleSetDefaultSpawn s pos
  | _, _ => (s, [], [])

/-- Deliver a packet sequence, accumulating serverbound packets and
emitted events in order. -/
def processPackets (s : BotState) : List Packet → BotState × List Sent × List Event
  | [] => (s, [], [])
  | p :: ps =>
    let r1 := step s p
    let r2 := processPackets r1.1 ps
    (r2.1, r1.2.1 ++ r2.2.1, r1.2.2 ++ r2.2.2)

/-- A freshly constructed bot whose protocol state has reached Play
(the state in which the Play handlers are registered to run). -/
def freshPlay : BotState := { connState := ConnState.play }

/-- Python float `a % b`: `a - b * floor(a / b)`. -/
def pymod (a b : ℚ) : ℚ := a - b * (⌊a / b⌋ : ℤ)

/-- `look` (bot.py lines 673-675): stores the yaw target verbatim and
the pitch target clamped to `[-90, 90]`. -/
def look (s : BotState) (yaw pitch : ℚ) : BotState :=
  { s with target_yaw := some yaw, target_pitch := some (max (-90) (min 90 pitch)) }

/-- `look_relative` (bot.py lines 677-680): wraps the new yaw modulo 360
and clamps the new pitch, then delegates to `look`. -/
def look_relative (s : BotState) (yaw_delta pitch_delta : ℚ) : BotState :=
  look s (pymod (s.player.position.yaw + yaw_delta) 360)
    (max (-90) (min 90 (s.player.position.pitch + pitch_delta)))

/-- The look-target application at the top of `_position_update_loop`
(bot.py lines 589-595): pending targets are copied into the stored
position verbatim and cleared. -/
def apply_look_targets (s : BotState) : BotState :=
  if s.target_yaw ≠ none ∨ s.target_pitch ≠ none then
    let s1 :=
      match s.target_yaw with
      | some ty =>
        { s with player := { s.player with position := { s.player.position with yaw := ty } },
                 target_yaw := none }
      | none => s
    match s1.target_pitch with
    | some tp =>
      { s1 with player := { s1.player with position := { s1.player.position with pitch := tp } },
                target_pitch := none }
    | none => s1
  else s

/-- The key-coherence invariant of the entity dictionary: every stored
record's `entity_id` field equals its dictionary key. -/
def entitiesWellKeyed (m : List (Int × EntityRec)) : Prop :=
  ∀ pr ∈ m, pr.2.entity_id = pr.1

/-- The record a BlockUpdate payload turns into. -/
def blockChangeOf (q : (Int × Int × Int) × Int × ℚ) : BlockChange :=
  { position := q.1, block_id := q.2.1, time := q.2.2 }

/-- The BlockUpdate packet for a payload triple. -/
def blockUpdateOf (q : (Int × Int × Int) × Int × ℚ) : Packet :=
  Packet.blockUpdate q.1 q.2.1 q.2.2

/-- Scenario state for the configuration re-entry trace: a bot whose
session has reached the Configuration phase (as after Login Success),
with the constructor-default flags. -/
def reconfigStart : BotState := { connState := ConnState.configuration }

/-- The configuration re-entry trace: finish configuration (enter Play),
receive Play Login, re-enter Configuration via StartConfiguration,
finish configuration again, receive a second Play Login. -/
def reconfigTrace : List Packet :=
  [Packet.configFinish, Packet.loginPlay 1 false, Packet.startConfiguration,
   Packet.configFinish, Packet.loginPlay 1 false]

/-! Bit-arithmetic helper lemmas used to reason about the codec. -/

lemma lor_shiftLeft_eq_add {acc x s : Nat} (h : acc < 2 ^ s) :
    acc ||| x <<< s = acc + x * 2 ^ s := by
  have hadd : acc + x * 2 ^ s = 2 ^ s * x + acc := by ring
  apply Nat.eq_of_testBit_eq
  intro i
  rw [Nat.testBit_lor, Nat.testBit_shiftLeft, hadd, Nat.testBit_mul_pow_two_add x h i]
  by_cases hi : i < s
  · rw [if_pos hi]
    have hge : ¬ (i ≥ s) := by omega
    simp [hge]
  · rw [if_neg hi]
    have h1 : acc.testBit i = false :=
      Nat.testBit_lt_two_pow (lt_of_lt_of_le h (Nat.pow_le_pow_right (by norm_num) (by omega)))
    have h2 : i ≥ s := by omega
    simp [h1, h2]

lemma and_127_eq_mod (v : Nat) : v &&& 127 = v % 128 := by
  have h := Nat.and_pow_two_sub_one_eq_mod v 7
  norm_num at h
  exact h

lemma and_128_eq_zero {w : Nat} (h : w < 128) : w &&& 128 = 0 := by
  have h128 : (128 : Nat) = 2 ^ 7 := by norm_num
  rw [h128, Nat.and_two_pow, Nat.testBit_lt_two_pow (by omega : w < 2 ^ 7)]
  simp

lemma or_128_eq_add {w : Nat} (h : w < 128) : w ||| 128 = w + 128 := by
  have h1 : w ||| 1 <<< 7 = w + 1 * 2 ^ 7 :=
    lor_shiftLeft_eq_add (by omega : w < 2 ^ 7)
  simpa using h1

lemma add_128_and_128_ne_zero {w : Nat} (h : w < 128) : (w + 128) &&& 128 ≠ 0 := by
  have ht : (w + 128).testBit 7 = true := by
    rw [Nat.testBit_to_div_mod]
    have hdiv : (w + 128) / 2 ^ 7 = 1 := by omega
    rw [hdiv]
    norm_num
  have h2 : (w + 128) &&& 128 = ((w + 128).testBit 7).toNat * 2 ^ 7 := by
    have h3 := Nat.and_two_pow (w + 128) 7
    norm_num at h3 ⊢
    exact h3
  rw [h2, ht]
  norm_num

namespace VarInt

/-- Reading back what the write loop emitted, from any accumulator state
the read loop can be in while scanning a well-formed stream. -/
lemma readAux_writeNatAux (fuel : Nat) :
    ∀ (v shift acc consumed : Nat) (rest : List Nat),
      v ≤ fuel → shift % 7 = 0 → shift ≤ 28 → v < 2 ^ (35 - shift) → acc < 2 ^ shift →
      readAux (writeNatAux fuel v ++ rest) acc shift consumed =
        .ok (acc + v * 2 ^ shift, consumed + (writeNatAux fuel v).length) := by
  induction fuel with
  | zero =>
    intro v shift acc consumed rest hv _ _ _ hacc
    have hv0 : v = 0 := Nat.le_zero.mp hv
    subst hv0
    simp only [writeNatAux, Nat.zero_and, List.cons_append, List.nil_append, readAux,
      Nat.zero_shiftLeft, List.length_cons, List.length_nil]
    norm_num
  | succ fuel ih =>
    intro v shift acc consumed rest hv h7 h28 hbound hacc
    by_cases hz : v >>> 7 = 0
    · have hvlt : v < 128 := by
        rw [Nat.shiftRight_eq_div_pow] at hz
        omega
      have hand : v &&& 127 = v := by
        rw [and_127_eq_mod]
        omega
      have hw : writeNatAux (fuel + 1) v = [v] := by
        simp only [writeNatAux]
        rw [if_pos hz, hand]
      rw [hw]
      simp only [List.cons_append, List.nil_append, readAux, hand,
        and_128_eq_zero hvlt, if_pos]
      rw [lor_shiftLeft_eq_add hacc]
      simp
    · have hvge : 128 ≤ v := by
        rw [Nat.shiftRight_eq_div_pow] at hz
        by_contra hlt
        exact hz (by omega)
      have hshift21 : shift ≤ 21 := by
        by_contra hgt
        have h28' : shift = 28 := by omega
        rw [h28'] at hbound
        norm_num at hbound
        omega
      have hb : (v &&& 127) ||| 128 = v % 128 + 128 := by
        rw [and_127_eq_mod]
        exact or_128_eq_add (Nat.mod_lt _ (by norm_num))
      have hw : writeNatAux (fuel + 1) v = (v % 128 + 128) :: writeNatAux fuel (v >>> 7) := by
        simp only [writeNatAux]
        rw [if_neg hz, hb]
      rw [hw]
      have hb127 : (v % 128 + 128) &&& 127 = v % 128 := by
        rw [and_127_eq_mod]
        omega
      have hb128 := add_128_and_128_ne_zero (Nat.mod_lt v (show 0 < 128 by norm_num))
      have hstep : readAux ((v % 128 + 128) :: (writeNatAux fuel (v >>> 7) ++ rest)) acc shift consumed =
          readAux (writeNatAux fuel (v >>> 7) ++ rest) (acc + v % 128 * 2 ^ shift)
            (shift + 7) (consumed + 1) := by
        simp only [readAux]
        rw [if_neg hb128, if_neg (by omega : ¬ 32 ≤ shift + 7), hb127,
          lor_shiftLeft_eq_add hacc]
      rw [List.cons_append, hstep]
      have hv2 : v >>> 7 ≤ fuel := by
        rw [Nat.shiftRight_eq_div_pow]
        omega
      have hbound2 : v >>> 7 < 2 ^ (35 - (shift + 7)) := by
        have hexp : 35 - shift = (35 - (shift + 7)) + 7 := by omega
        rw [Nat.shiftRight_eq_div_pow]
        apply Nat.div_lt_of_lt_mul
        rw [hexp, pow_add] at hbound
        calc v < 2 ^ (35 - (shift + 7)) * 2 ^ 7 := hbound
          _ = 2 ^ 7 * 2 ^ (35 - (shift + 7)) := by ring
      have hpow : (2 : Nat) ^ (shift + 7) = 2 ^ shift * 128 := by
        rw [pow_add]
        norm_num
      have hacc2 : acc + v % 128 * 2 ^ shift < 2 ^ (shift + 7) := by
        have hm : v % 128 ≤ 127 := by omega
        rw [hpow]
        nlinarith
      rw [ih (v >>> 7) (shift + 7) (acc + v % 128 * 2 ^ shift) (consumed + 1) rest
        hv2 (by omega) (by omega) hbound2 hacc2]
      congr 1
      simp only [Prod.mk.injEq]
      constructor
      · have hsplit : v = 128 * (v >>> 7) + v % 128 := by
          rw [Nat.shiftRight_eq_div_pow]
          omega
        rw [hpow]
        nlinarith [hsplit]
      · simp
        omega

lemma readAux_writeNat {v : Nat} (hv : v < 2 ^ 32) :
    readAux (writeNat v) 0 0 0 = .ok (v, (writeNat v).length) := by
  have h := readAux_writeNatAux v v 0 0 0 [] (le_refl v) rfl (by omega)
    (by norm_num; omega) (by norm_num)
  simpa [writeNat] using h

lemma read_writeNat {v : Nat} (hv : v < 2 ^ 32) :
    read (writeNat v) =
      .ok (if 2 ^ 31 ≤ v then (v : Int) - 2 ^ 32 else (v : Int), (writeNat v).length) := by
  unfold read
  rw [readAux_writeNat hv]

end VarInt

/-- C2: For every 32-bit signed integer n in [-2^31, 2^31), VarInt.read
applied to VarInt.write(n) returns n, with the offset advanced exactly
past the written bytes (the consumed-byte count equals the length of the
written encoding). -/
theorem c2_varint_roundtrip (n : Int) (h1 : -(2 ^ 31) ≤ n) (h2 : n < 2 ^ 31) :
    VarInt.read (VarInt.write n) = .ok (n, (VarInt.write n).length) := by
  unfold VarInt.write
  by_cases hn : n < 0
  · rw [if_pos hn]
    have hge : (0 : Int) ≤ n + 2 ^ 32 := by omega
    have hvint : (((n + 2 ^ 32).toNat : Nat) : Int) = n + 2 ^ 32 := Int.toNat_of_nonneg hge
    have hv32 : (n + 2 ^ 32).toNat < 2 ^ 32 := by omega
    rw [VarInt.read_writeNat hv32]
    simp only [Except.ok.injEq, Prod.mk.injEq, and_true]
    split_ifs with h
    · omega
    · omega
  · rw [if_neg hn]
    have hge : (0 : Int) ≤ n := by omega
    have hvint : ((n.toNat : Nat) : Int) = n := Int.toNat_of_nonneg hge
    have hv32 : n.toNat < 2 ^ 32 := by omega
    rw [VarInt.read_writeNat hv32]
    simp only [Except.ok.injEq, Prod.mk.injEq, and_true]
    split_ifs with h
    · omega
    · omega

theorem c2_varint_roundtrip_witness :
    (-(2 ^ 31) ≤ (0 : Int) ∧ (0 : Int) < 2 ^ 31) ∧
    VarInt.read (VarInt.write 0) = .ok (0, (VarInt.write 0).length) ∧
    VarInt.read (VarInt.write 1) = .ok (1, (VarInt.write 1).length) ∧
    VarInt.read (VarInt.write (-1)) = .ok (-1, (VarInt.write (-1)).length) ∧
    VarInt.read (VarInt.write 127) = .ok (127, (VarInt.write 127).length) ∧
    VarInt.read (VarInt.write 128) = .ok (128, (VarInt.write 128).length) ∧
    VarInt.read (VarInt.write (2 ^ 31 - 1)) = .ok (2 ^ 31 - 1, (VarInt.write (2 ^ 31 - 1)).length) ∧
    VarInt.read (VarInt.write (-(2 ^ 31))) = .ok (-(2 ^ 31), (VarInt.write (-(2 ^ 31))).length) :=
  ⟨⟨by norm_num, by norm_num⟩,
   c2_varint_roundtrip 0 (by norm_num) (by norm_num),
   c2_varint_roundtrip 1 (by norm_num) (by norm_num),
   c2_varint_roundtrip (-1) (by norm_num) (by norm_num),
   c2_varint_roundtrip 127 (by norm_num) (by norm_num),
   c2_varint_roundtrip 128 (by norm_num) (by norm_num),
   c2_varint_roundtrip (2 ^ 31 - 1) (by norm_num) (by norm_num),
   c2_varint_roundtrip (-(2 ^ 31)) (by norm_num) (by norm_num)⟩

/-- C4: the claim says a malformed VarInt length (five continuation
bytes) terminates the session.  In the source the resulting
`ValueError("VarInt is too big")` is caught by the indiscriminate
`except ValueError: pass` of `receive_packet`, so the loop instead falls
through to await more socket data: on the buffer 80 80 80 80 80 the
VarInt reader reports the malformed length, yet the frame-assembly step
continues reading rather than failing. -/
theorem c4_malformed_varint_swallowed :
    VarInt.read (List.replicate 5 0x80) = .error VarIntErr.tooBig ∧
    receive_frame_step (List.replicate 5 0x80) = FrameOutcome.needMoreData :=
  ⟨rfl, rfl⟩

/-- C8: the claim says a VarInt string length implying truncation is
rejected.  In the source `read_string` slices
`data[offset : offset + length]`, and Python slicing silently truncates:
on the buffer 05 61 62 (declared length 5, two bytes remaining) it
returns the two available bytes and advances the offset to 6, with no
error. -/
theorem c8_read_string_truncates :
    PacketBuffer.read_string [0x05, 0x61, 0x62] 0 = .ok ([0x61, 0x62], 6) := rfl

/-- C3: With a compression threshold T ≥ 0, every frame payload built by
send_packet is: VarInt(uncompressed size) followed by compressed bytes
that inflate back to exactly packet_id-VarInt plus data when that
uncompressed size is ≥ T, and VarInt(0) followed by the uncompressed
packet_id-VarInt plus data when it is strictly below T.  zlib is
external, so compression is any function with a left inverse. -/
theorem c3_send_packet_compression (compress decompress : List Nat → List Nat)
    (hinv : ∀ bs, decompress (compress bs) = bs)
    (T : Int) (hT : 0 ≤ T) (packet_id : Int) (data : List Nat) :
    (send_packet compress T packet_id data =
      VarInt.write ((packet_with_length compress T packet_id data).length : Int)
        ++ packet_with_length compress T packet_id data) ∧
    (T ≤ ((packet_data packet_id data).length : Int) →
      packet_with_length compress T packet_id data =
        VarInt.write ((packet_data packet_id data).length : Int)
          ++ compress (packet_data packet_id data) ∧
      decompress ((packet_with_length compress T packet_id data).drop
          (VarInt.write ((packet_data packet_id data).length : Int)).length) =
        packet_data packet_id data) ∧
    (((packet_data packet_id data).length : Int) < T →
      packet_with_length compress T packet_id data =
        VarInt.write 0 ++ packet_data packet_id data) := by
  refine ⟨by rw [send_packet, if_pos hT], ?_, ?_⟩
  · intro hge
    rw [packet_with_length, if_pos hge]
    exact ⟨rfl, by rw [List.drop_left]; exact hinv _⟩
  · intro hlt
    rw [packet_with_length, if_neg (by omega)]

theorem c3_send_packet_compression_witness :
    (0 ≤ (1 : Int)) ∧
    ((send_packet id 1 0 [] =
      VarInt.write ((packet_with_length id 1 0 []).length : Int)
        ++ packet_with_length id 1 0 []) ∧
    ((1 : Int) ≤ ((packet_data 0 []).length : Int) →
      packet_with_length id 1 0 [] =
        VarInt.write ((packet_data 0 []).length : Int) ++ id (packet_data 0 []) ∧
      id ((packet_with_length id 1 0 []).drop
          (VarInt.write ((packet_data 0 []).length : Int)).length) = packet_data 0 []) ∧
    (((packet_data 0 []).length : Int) < 1 →
      packet_with_length id 1 0 [] = VarInt.write 0 ++ packet_data 0 [])) :=
  ⟨by norm_num, c3_send_packet_compression id id (fun _ => rfl) 1 (by norm_num) 0 []⟩

lemma packPosition_toInt (x y z : Int) :
    (packPosition x y z : Int) = x % 2 ^ 26 * 2 ^ 38 + z % 2 ^ 26 * 2 ^ 12 + y % 2 ^ 12 := by
  have hx0 : 0 ≤ x % 2 ^ 26 := Int.emod_nonneg x (by norm_num)
  have hxlt : x % 2 ^ 26 < 2 ^ 26 := Int.emod_lt_of_pos x (by norm_num)
  have hz0 : 0 ≤ z % 2 ^ 26 := Int.emod_nonneg z (by norm_num)
  have hzlt : z % 2 ^ 26 < 2 ^ 26 := Int.emod_lt_of_pos z (by norm_num)
  have hy0 : 0 ≤ y % 2 ^ 12 := Int.emod_nonneg y (by norm_num)
  have hylt : y % 2 ^ 12 < 2 ^ 12 := Int.emod_lt_of_pos y (by norm_num)
  have hzmlt : (z % 2 ^ 26).toNat < 2 ^ 26 := by omega
  have hymlt : (y % 2 ^ 12).toNat < 2 ^ 12 := by omega
  have h1 : (x % 2 ^ 26).toNat <<< 38 ||| (z % 2 ^ 26).toNat <<< 12 =
      (z % 2 ^ 26).toNat <<< 12 + (x % 2 ^ 26).toNat * 2 ^ 38 := by
    rw [Nat.lor_comm]
    refine lor_shiftLeft_eq_add ?_
    rw [Nat.shiftLeft_eq]
    omega
  have h2 : (z % 2 ^ 26).toNat <<< 12 + (x % 2 ^ 26).toNat * 2 ^ 38 =
      ((z % 2 ^ 26).toNat + (x % 2 ^ 26).toNat * 2 ^ 26) <<< 12 := by
    rw [Nat.shiftLeft_eq, Nat.shiftLeft_eq]
    omega
  have h3 : ((z % 2 ^ 26).toNat + (x % 2 ^ 26).toNat * 2 ^ 26) <<< 12 ||| (y % 2 ^ 12).toNat =
      (y % 2 ^ 12).toNat + ((z % 2 ^ 26).toNat + (x % 2 ^ 26).toNat * 2 ^ 26) * 2 ^ 12 := by
    rw [Nat.lor_comm]
    exact lor_shiftLeft_eq_add hymlt
  unfold packPosition
  rw [h1, h2, h3]
  omega

lemma beLongBytes_value (n : Nat) (h : n < 2 ^ 64) :
    (((((((n / 2 ^ 56 % 256) * 256 + n / 2 ^ 48 % 256) * 256 + n / 2 ^ 40 % 256) * 256
      + n / 2 ^ 32 % 256) * 256 + n / 2 ^ 24 % 256) * 256 + n / 2 ^ 16 % 256) * 256
      + n / 2 ^ 8 % 256) * 256 + n % 256 = n := by
  omega

lemma read_long_beLongBytes {n : Nat} (h : n < 2 ^ 64) :
    PacketBuffer.read_long (beLongBytes n) = some (PacketBuffer.read_long.signed64 n) := by
  show some (PacketBuffer.read_long.signed64 _) = _
  rw [beLongBytes_value n h]

/-- C6: For all x, z in [-2^25, 2^25) and y in [-2^11, 2^11), reading
the 8-byte big-endian signed encoding of the packed value
((x & 0x3FFFFFF) << 38) | ((z & 0x3FFFFFF) << 12) | (y & 0xFFF) with
read_position returns exactly (x, y, z): all three fields are correctly
sign-extended. -/
theorem c6_read_position_roundtrip (x y z : Int)
    (hx1 : -(2 ^ 25) ≤ x) (hx2 : x < 2 ^ 25)
    (hz1 : -(2 ^ 25) ≤ z) (hz2 : z < 2 ^ 25)
    (hy1 : -(2 ^ 11) ≤ y) (hy2 : y < 2 ^ 11) :
    PacketBuffer.read_position (beLongBytes (packPosition x y z)) = some (x, y, z) := by
  have hx0 : 0 ≤ x % 2 ^ 26 := Int.emod_nonneg x (by norm_num)
  have hxlt : x % 2 ^ 26 < 2 ^ 26 := Int.emod_lt_of_pos x (by norm_num)
  have hz0 : 0 ≤ z % 2 ^ 26 := Int.emod_nonneg z (by norm_num)
  have hzlt : z % 2 ^ 26 < 2 ^ 26 := Int.emod_lt_of_pos z (by norm_num)
  have hy0 : 0 ≤ y % 2 ^ 12 := Int.emod_nonneg y (by norm_num)
  have hylt : y % 2 ^ 12 < 2 ^ 12 := Int.emod_lt_of_pos y (by norm_num)
  have hsum := packPosition_toInt x y z
  have hlt : packPosition x y z < 2 ^ 64 := by omega
  unfold PacketBuffer.read_position
  rw [read_long_beLongBytes hlt]
  show some
      (if 2 ^ 25 ≤ PacketBuffer.read_long.signed64 (packPosition x y z) / 2 ^ 38 then _ else _,
       if 2 ^ 11 ≤ PacketBuffer.read_long.signed64 (packPosition x y z) % 2 ^ 12 then _ else _,
       if 2 ^ 25 ≤ PacketBuffer.read_long.signed64 (packPosition x y z) / 2 ^ 12 % 2 ^ 26
         then _ else _) = some (x, y, z)
  unfold PacketBuffer.read_long.signed64
  simp only [Option.some.injEq, Prod.mk.injEq]
  refine ⟨?_, ?_, ?_⟩ <;> (split_ifs <;> omega)

lemma step_blockUpdate_eq (s : BotState) (hs : s.connState = ConnState.play)
    (pos : Int × Int × Int) (bid : Int) (t : ℚ) :
    step s (Packet.blockUpdate pos bid t) = handleBlockUpdate s pos bid t := by
  obtain ⟨cs, pl, w, jg, sc, ic, ty, tp, pts, lka⟩ := s
  replace hs : cs = ConnState.play := hs
  subst hs
  rfl

/-- C1: For every prior player position and every
SynchronizePlayerPosition payload, the handler sets each of x, y, z,
yaw, pitch to old+new when the corresponding flag bit (0x01, 0x02, 0x04,
0x08, 0x10) is set and to new otherwise, and sends a TeleportConfirm
packet carrying exactly the received teleport_id. -/
theorem c1_synchronize_player_position (s : BotState) (h : s.connState = ConnState.play)
    (tid : Int) (x y z vx vy vz yaw pitch : ℚ) (flags : Int) :
    ((step s (Packet.synchronizePlayerPosition tid x y z vx vy vz yaw pitch flags)).1.player.position.x
        = (if Int.land flags 0x01 ≠ 0 then s.player.position.x + x else x)) ∧
    ((step s (Packet.synchronizePlayerPosition tid x y z vx vy vz yaw pitch flags)).1.player.position.y
        = (if Int.land flags 0x02 ≠ 0 then s.player.position.y + y else y)) ∧
    ((step s (Packet.synchronizePlayerPosition tid x y z vx vy vz yaw pitch flags)).1.player.position.z
        = (if Int.land flags 0x04 ≠ 0 then s.player.position.z + z else z)) ∧
    ((step s (Packet.synchronizePlayerPosition tid x y z vx vy vz yaw pitch flags)).1.player.position.yaw
        = (if Int.land flags 0x08 ≠ 0 then s.player.position.yaw + yaw else yaw)) ∧
    ((step s (Packet.synchronizePlayerPosition tid x y z vx vy vz yaw pitch flags)).1.player.position.pitch
        = (if Int.land flags 0x10 ≠ 0 then s.player.position.pitch + pitch else pitch)) ∧
    (step s (Packet.synchronizePlayerPosition tid x y z vx vy vz yaw pitch flags)).2.1
        = [Sent.teleportConfirm tid] := by
  obtain ⟨cs, pl, w, jg, sc, ic, ty, tp, pts, lka⟩ := s
  replace h : cs = ConnState.play := h
  subst h
  cases sc <;> cases pts <;>
    simp [step, handleSynchronizePlayerPosition]

theorem c1_synchronize_player_position_witness :
    (freshPlay.connState = ConnState.play) ∧
    (((step freshPlay (Packet.synchronizePlayerPosition 42 5 0 (-3) 0 0 0 0 0 0x07)).1.player.position.x
        = (if Int.land 0x07 0x01 ≠ 0 then freshPlay.player.position.x + 5 else 5)) ∧
    ((step freshPlay (Packet.synchronizePlayerPosition 42 5 0 (-3) 0 0 0 0 0 0x07)).1.player.position.y
        = (if Int.land 0x07 0x02 ≠ 0 then freshPlay.player.position.y + 0 else 0)) ∧
    ((step freshPlay (Packet.synchronizePlayerPosition 42 5 0 (-3) 0 0 0 0 0 0x07)).1.player.position.z
        = (if Int.land 0x07 0x04 ≠ 0 then freshPlay.player.position.z + (-3) else (-3))) ∧
    ((step freshPlay (Packet.synchronizePlayerPosition 42 5 0 (-3) 0 0 0 0 0 0x07)).1.player.position.yaw
        = (if Int.land 0x07 0x08 ≠ 0 then freshPlay.player.position.yaw + 0 else 0)) ∧
    ((step freshPlay (Packet.synchronizePlayerPosition 42 5 0 (-3) 0 0 0 0 0 0x07)).1.player.position.pitch
        = (if Int.land 0x07 0x10 ≠ 0 then freshPlay.player.position.pitch + 0 else 0)) ∧
    (step freshPlay (Packet.synchronizePlayerPosition 42 5 0 (-3) 0 0 0 0 0 0x07)).2.1
        = [Sent.teleportConfirm 42]) :=
  ⟨rfl, c1_synchronize_player_position freshPlay rfl 42 5 0 (-3) 0 0 0 0 0 0x07⟩

/-- C5 counterexample: on the reachable trace finish-configuration,
Play Login, StartConfiguration, finish-configuration, second Play Login,
the `join` event is emitted twice, because `_handle_start_configuration`
resets `_joined_game` to False.  This refutes the claim that `join` is
emitted at most once per connection. -/
theorem c5_join_emitted_twice :
    ¬ ((processPackets reconfigStart reconfigTrace).2.2.count Event.join ≤ 1) := by decide

lemma step_join_monotone (s : BotState) (p : Packet)
    (hp : p ≠ Packet.startConfiguration) :
    ((step s p).2.2.count Event.join = 0 ∧ (step s p).1.joined_game = s.joined_game) ∨
    (s.joined_game = false ∧ (step s p).1.joined_game = true ∧
      (step s p).2.2.count Event.join = 1) := by
  obtain ⟨cs, pl, w, jg, sc, ic, ty, tp, pts, lka⟩ := s
  cases cs <;> cases p <;> cases jg <;> cases sc <;> cases pts
  all_goals try (exact absurd rfl hp)
  all_goals try (left; exact ⟨rfl, rfl⟩)
  all_goals try (right; exact ⟨rfl, rfl, rfl⟩)
  all_goals simp only [step, handleUpdateEntityPosition]
  all_goals split_ifs <;> (left; exact ⟨rfl, rfl⟩)

/-- C5 amended: between StartConfiguration packets the `join` event is
emitted at most once: over any packet sequence containing no
StartConfiguration, at most one `join` is emitted (and none if the bot
has already joined), because only the first Play Login flips the joined
flag; StartConfiguration, however, resets the flag, so a later Play
Login emits `join` again. -/
theorem c5_join_once_between_reconfigurations (s : BotState) (ps : List Packet)
    (h : Packet.startConfiguration ∉ ps) :
    (processPackets s ps).2.2.count Event.join ≤ (if s.joined_game then 0 else 1) := by
  induction ps generalizing s with
  | nil =>
    simp only [processPackets, List.count_nil]
    split_ifs <;> omega
  | cons p ps ih =>
    have hp : p ≠ Packet.startConfiguration := fun he => h (he ▸ List.mem_cons_self p ps)
    have hps : Packet.startConfiguration ∉ ps := fun hm => h (List.mem_cons_of_mem _ hm)
    simp only [processPackets, List.count_append]
    have hrest := ih (step s p).1 hps
    rcases step_join_monotone s p hp with ⟨h0, hj⟩ | ⟨h0, hj, h1⟩
    · rw [hj] at hrest
      rw [h0]
      cases hb : s.joined_game
      · rw [hb] at hrest
        rw [if_neg (by decide : ¬ (false = true))] at hrest ⊢
        omega
      · rw [hb] at hrest
        rw [if_pos (by decide : (true = true))] at hrest ⊢
        omega
    · rw [hj] at hrest
      rw [if_pos (by decide : (true = true))] at hrest
      rw [h0, h1, if_neg (by decide : ¬ (false = true))]
      omega

theorem c5_join_once_between_reconfigurations_witness :
    (Packet.startConfiguration ∉ [Packet.loginPlay 1 false, Packet.loginPlay 2 true]) ∧
    (processPackets freshPlay [Packet.loginPlay 1 false, Packet.loginPlay 2 true]).2.2.count
        Event.join ≤ (if freshPlay.joined_game then 0 else 1) :=
  ⟨by decide,
   c5_join_once_between_reconfigurations freshPlay
     [Packet.loginPlay 1 false, Packet.loginPlay 2 true] (by decide)⟩

lemma processPackets_blockUpdates_no_trim
    (us : List ((Int × Int × Int) × Int × ℚ)) :
    ∀ s : BotState, s.connState = ConnState.play →
      s.world.block_changes.length + us.length ≤ 1000 →
      (processPackets s (us.map blockUpdateOf)).1 =
        { s with world := { s.world with
            block_changes := s.world.block_changes ++ us.map blockChangeOf } } := by
  induction us with
  | nil =>
    intro s hs hlen
    simp [processPackets]
  | cons u us ih =>
    intro s hs hlen
    simp only [List.map_cons, processPackets, blockUpdateOf]
    rw [step_blockUpdate_eq s hs]
    have hno : ¬ (1000 < (s.world.block_changes ++
        [{ position := u.1, block_id := u.2.1, time := u.2.2 : BlockChange }]).length) := by
      simp only [List.length_append, List.length_cons, List.length_nil]
      simp only [List.length_cons] at hlen
      omega
    simp only [handleBlockUpdate, blockUpdateOf, if_neg hno]
    rw [ih]
    · simp [blockChangeOf]
    · exact hs
    · simp only [List.length_append, List.length_cons, List.length_nil]
      simp only [List.length_cons] at hlen
      omega

/-- C7: Each BlockUpdate appends one change record, and a log length
above 1000 is trimmed to the most recent 500; after 1001 BlockUpdate
packets delivered to a fresh world state the log is exactly the most
recent 500 records, in order. -/
theorem c7_block_update_trimming (us : List ((Int × Int × Int) × Int × ℚ))
    (u : (Int × Int × Int) × Int × ℚ) (h : us.length = 1000) :
    ((processPackets freshPlay ((us ++ [u]).map blockUpdateOf)).1.world.block_changes.length = 500) ∧
    (processPackets freshPlay ((us ++ [u]).map blockUpdateOf)).1.world.block_changes =
      ((us ++ [u]).map blockChangeOf).drop 501 := by
  have hfst : (processPackets freshPlay ((us ++ [u]).map blockUpdateOf)).1 =
      (step (processPackets freshPlay (us.map blockUpdateOf)).1 (blockUpdateOf u)).1 := by
    rw [List.map_append]
    generalize freshPlay = s0
    induction us.map blockUpdateOf generalizing s0 with
    | nil => simp [processPackets]
    | cons q qs ihq => simp only [List.cons_append, processPackets]; exact ihq _
  have h1000 := processPackets_blockUpdates_no_trim us freshPlay rfl
    (by simp [freshPlay, h])
  rw [hfst, h1000]
  simp only [blockUpdateOf]
  have hs1 : ({ freshPlay with world := { freshPlay.world with
      block_changes := freshPlay.world.block_changes ++ us.map blockChangeOf } } :
      BotState).connState = ConnState.play := rfl
  rw [step_blockUpdate_eq _ hs1]
  have hlen1 : ((freshPlay.world.block_changes ++ us.map blockChangeOf) ++
      [{ position := u.1, block_id := u.2.1, time := u.2.2 : BlockChange }]).length = 1001 := by
    simp [freshPlay, h]
  have htrim : 1000 < ((freshPlay.world.block_changes ++ us.map blockChangeOf) ++
      [{ position := u.1, block_id := u.2.1, time := u.2.2 : BlockChange }]).length := by
    omega
  simp only [handleBlockUpdate, if_pos htrim]
  constructor
  · rw [List.length_drop, hlen1]
  · have hnil : freshPlay.world.block_changes = [] := rfl
    rw [hlen1, hnil, List.nil_append, List.map_append]
    norm_num
    simp only [List.map_cons, List.map_nil, blockChangeOf]

set_option maxRecDepth 4000 in
theorem c7_block_update_trimming_witness :
    ((List.replicate 1000 (((0, 0, 0) : Int × Int × Int), (0 : Int), (0 : ℚ))).length = 1000) ∧
    (((processPackets freshPlay
        (((List.replicate 1000 (((0, 0, 0) : Int × Int × Int), (0 : Int), (0 : ℚ)))
          ++ [(((1, 2, 3) : Int × Int × Int), (7 : Int), (0 : ℚ))]).map
          blockUpdateOf)).1.world.block_changes.length = 500) ∧
    (processPackets freshPlay
        (((List.replicate 1000 (((0, 0, 0) : Int × Int × Int), (0 : Int), (0 : ℚ)))
          ++ [(((1, 2, 3) : Int × Int × Int), (7 : Int), (0 : ℚ))]).map
          blockUpdateOf)).1.world.block_changes =
      (((List.replicate 1000 (((0, 0, 0) : Int × Int × Int), (0 : Int), (0 : ℚ)))
          ++ [(((1, 2, 3) : Int × Int × Int), (7 : Int), (0 : ℚ))]).map
          blockChangeOf).drop 501) :=
  ⟨by simp,
   c7_block_update_trimming _ _ (by simp)⟩

/-- C9 counterexample: `look(400, 0)` followed by the position tick
stores yaw 400, which is not reduced modulo 360 (the reduced value would
be 40): `look` does not wrap its yaw argument, so the claim fails. -/
theorem c9_look_yaw_not_wrapped :
    (apply_look_targets (look freshPlay 400 0)).player.position.yaw = 400 ∧
    pymod 400 360 = 40 ∧ ((400 : ℚ) ≠ 40) := by
  refine ⟨rfl, ?_, by norm_num⟩
  norm_num [pymod]

lemma pymod_360_bounds (a : ℚ) : 0 ≤ pymod a 360 ∧ pymod a 360 < 360 := by
  unfold pymod
  constructor
  · have hfl := Int.floor_le (a / 360)
    have h360 : (360 : ℚ) * (⌊a / 360⌋ : ℤ) ≤ 360 * (a / 360) := by
      have : (0 : ℚ) < 360 := by norm_num
      exact mul_le_mul_of_nonneg_left hfl (by norm_num)
    have : (360 : ℚ) * (a / 360) = a := by ring
    linarith
  · have hfl := Int.lt_floor_add_one (a / 360)
    have h360 : (360 : ℚ) * (a / 360) < 360 * ((⌊a / 360⌋ : ℤ) + 1) := by
      exact mul_lt_mul_of_pos_left hfl (by norm_num)
    have : (360 : ℚ) * (a / 360) = a := by ring
    linarith

/-- C9 amended: after a client look mutation is applied by the position
tick, the stored pitch always lies in [-90, 90]; `look_relative` also
reduces the stored yaw modulo 360 (into [0, 360)), but `look` stores its
yaw argument unreduced. -/
theorem c9_orientation_bounds (s : BotState) (yaw pitch dyaw dpitch : ℚ) :
    (-90 ≤ (apply_look_targets (look s yaw pitch)).player.position.pitch ∧
      (apply_look_targets (look s yaw pitch)).player.position.pitch ≤ 90 ∧
      (apply_look_targets (look s yaw pitch)).player.position.yaw = yaw) ∧
    (0 ≤ (apply_look_targets (look_relative s dyaw dpitch)).player.position.yaw ∧
      (apply_look_targets (look_relative s dyaw dpitch)).player.position.yaw < 360 ∧
      -90 ≤ (apply_look_targets (look_relative s dyaw dpitch)).player.position.pitch ∧
      (apply_look_targets (look_relative s dyaw dpitch)).player.position.pitch ≤ 90) := by
  have hyaw : ∀ (t : BotState) (a b : ℚ),
      (apply_look_targets (look t a b)).player.position.yaw = a := fun t a b => rfl
  have hpitch : ∀ (t : BotState) (a b : ℚ),
      (apply_look_targets (look t a b)).player.position.pitch = max (-90) (min 90 b) :=
    fun t a b => rfl
  have hclamp : ∀ b : ℚ, -90 ≤ max (-90) (min 90 b) ∧ max (-90) (min 90 b) ≤ 90 := by
    intro b
    constructor
    · exact le_max_left _ _
    · exact max_le (by norm_num) (min_le_left _ _)
  refine ⟨⟨(hpitch s yaw pitch ▸ (hclamp pitch).1),
          (hpitch s yaw pitch ▸ (hclamp pitch).2), hyaw s yaw pitch⟩, ?_⟩
  unfold look_relative
  rw [hyaw, hpitch]
  have hb := pymod_360_bounds (s.player.position.yaw + dyaw)
  exact ⟨hb.1, hb.2, (hclamp _).1, (hclamp _).2⟩

lemma wellKeyed_dictInsert {m : List (Int × EntityRec)} {k : Int} {v : EntityRec}
    (hm : entitiesWellKeyed m) (hv : v.entity_id = k) :
    entitiesWellKeyed (dictInsert m k v) := by
  intro pr hpr
  unfold dictInsert at hpr
  split_ifs at hpr
  · rcases List.mem_map.mp hpr with ⟨q, hq, hqe⟩
    by_cases hk : q.1 = k
    · rw [if_pos hk] at hqe
      rw [← hqe]
      exact hv
    · rw [if_neg hk] at hqe
      rw [← hqe]
      exact hm q hq
  · rcases List.mem_append.mp hpr with hin | hin
    · exact hm pr hin
    · simp only [List.mem_singleton] at hin
      rw [hin]
      exact hv

lemma wellKeyed_dictPop {m : List (Int × EntityRec)} {k : Int}
    (hm : entitiesWellKeyed m) : entitiesWellKeyed (dictPop m k) :=
  fun pr hpr => hm pr (List.mem_of_mem_filter hpr)

lemma wellKeyed_foldl_dictPop (ids : List Int) :
    ∀ m : List (Int × EntityRec), entitiesWellKeyed m →
      entitiesWellKeyed (ids.foldl (fun m k => dictPop m k) m) := by
  induction ids with
  | nil => intro m hm; exact hm
  | cons i ids ih =>
    intro m hm
    exact ih _ (wellKeyed_dictPop hm)

lemma wellKeyed_dictUpdate {m : List (Int × EntityRec)} {k : Int} {f : EntityRec → EntityRec}
    (hm : entitiesWellKeyed m) (hf : ∀ e, (f e).entity_id = e.entity_id) :
    entitiesWellKeyed (dictUpdate m k f) := by
  intro pr hpr
  rcases List.mem_map.mp hpr with ⟨q, hq, hqe⟩
  by_cases hk : q.1 = k
  · rw [if_pos hk] at hqe
    rw [← hqe]
    simpa [hf] using hm q hq
  · rw [if_neg hk] at hqe
    rw [← hqe]
    exact hm q hq

/-- C10 (implicit): the entity dictionary invariant — every stored
record's entity_id field equals its key — holds after every Play packet
handler: SpawnEntity inserts a record keyed by the id it carries,
RemoveEntities only deletes keys (no-op on unknown ids), and the
relative-movement handlers mutate only coordinate fields of already
present records, so every step preserves the invariant. -/
theorem c10_entities_well_keyed (s : BotState) (p : Packet)
    (h : entitiesWellKeyed s.world.entities) :
    entitiesWellKeyed ((step s p).1.world.entities) := by
  obtain ⟨cs, pl, w, jg, sc, ic, ty, tp, pts, lka⟩ := s
  cases cs <;> cases p
  all_goals try (exact h)
  all_goals try (cases jg <;> exact h)
  all_goals try (cases sc <;> cases pts <;> exact h)
  all_goals try (exact wellKeyed_dictInsert h rfl)
  all_goals try (exact wellKeyed_foldl_dictPop _ _ h)
  all_goals simp only [step, handleUpdateEntityPosition]
  all_goals split_ifs
  all_goals dsimp only
  all_goals try (exact h)
  all_goals
    apply wellKeyed_dictUpdate h
    intro e
    rfl

theorem c10_entities_well_keyed_witness :
    entitiesWellKeyed freshPlay.world.entities ∧
    entitiesWellKeyed ((step freshPlay (Packet.spawnEntity 5 "u" 1 0 0 0)).1.world.entities) :=
  ⟨by simp [entitiesWellKeyed, freshPlay],
   c10_entities_well_keyed freshPlay (Packet.spawnEntity 5 "u" 1 0 0 0)
     (by simp [entitiesWellKeyed, freshPlay])⟩

theorem c6_read_position_roundtrip_witness :
    (-(2 ^ 25) ≤ (-(2 ^ 25) : Int) ∧ (-(2 ^ 25) : Int) < 2 ^ 25 ∧
     -(2 ^ 25) ≤ (2 ^ 25 - 1 : Int) ∧ (2 ^ 25 - 1 : Int) < 2 ^ 25 ∧
     -(2 ^ 11) ≤ (-(2 ^ 11) : Int) ∧ (-(2 ^ 11) : Int) < 2 ^ 11) ∧
    PacketBuffer.read_position (beLongBytes (packPosition (-(2 ^ 25)) (-(2 ^ 11)) (2 ^ 25 - 1)))
      = some (-(2 ^ 25), -(2 ^ 11), 2 ^ 25 - 1) :=
  ⟨⟨by norm_num, by norm_num, by norm_num, by norm_num, by norm_num, by norm_num⟩,
   c6_read_position_roundtrip (-(2 ^ 25)) (-(2 ^ 11)) (2 ^ 25 - 1)
     (by norm_num) (by norm_num) (by norm_num) (by norm_num) (by norm_num) (by norm_num)⟩

end Curiosity
